import Mathlib

/-
Verification of the interaction core of chameleon.js (src/js/app.js).

The file embeds, as Lean definitions, the camera-control mathematics of the
compiled `Chameleon` class (trackball projection, rotate/zoom/pan, the
per-frame `update`, and the viewing/drawing texture switch) together with the
`Controls` state machine of the TypeScript module, and proves the spec-level
properties about them.

Numeric values are modelled with exact arithmetic: the JavaScript doubles
become real numbers (`ℝ`) for the camera mathematics and rationals (`ℚ`) for
the discrete event-handling layer.  JavaScript NaN has no counterpart in `ℝ`;
wherever the source relies on NaN truthiness (e.g. `if (angle)`), the guard is
modelled by the exact-arithmetic condition that is equivalent to it, and the
equivalence is recorded in a comment at the definition.
-/

set_option maxHeartbeats 1000000

open scoped Classical

noncomputable section

/-- A 2D vector, as THREE.Vector2. -/
@[ext] structure Vec2 where
  x : ℝ
  y : ℝ

/-- A 3D vector, as THREE.Vector3. -/
@[ext] structure Vec3 where
  x : ℝ
  y : ℝ
  z : ℝ

instance : Zero Vec2 := ⟨⟨0, 0⟩⟩
instance : Add Vec2 := ⟨fun a b => ⟨a.x + b.x, a.y + b.y⟩⟩
instance : Sub Vec2 := ⟨fun a b => ⟨a.x - b.x, a.y - b.y⟩⟩
instance : SMul ℝ Vec2 := ⟨fun c v => ⟨c * v.x, c * v.y⟩⟩

instance : Zero Vec3 := ⟨⟨0, 0, 0⟩⟩
instance : Add Vec3 := ⟨fun a b => ⟨a.x + b.x, a.y + b.y, a.z + b.z⟩⟩
instance : Sub Vec3 := ⟨fun a b => ⟨a.x - b.x, a.y - b.y, a.z - b.z⟩⟩
instance : SMul ℝ Vec3 := ⟨fun c v => ⟨c * v.x, c * v.y, c * v.z⟩⟩

@[simp] theorem Vec2.v2_zero_x : (0 : Vec2).x = 0 := rfl
@[simp] theorem Vec2.v2_zero_y : (0 : Vec2).y = 0 := rfl
@[simp] theorem Vec2.v2_add_x (a b : Vec2) : (a + b).x = a.x + b.x := rfl
@[simp] theorem Vec2.v2_add_y (a b : Vec2) : (a + b).y = a.y + b.y := rfl
@[simp] theorem Vec2.v2_sub_x (a b : Vec2) : (a - b).x = a.x - b.x := rfl
@[simp] theorem Vec2.v2_sub_y (a b : Vec2) : (a - b).y = a.y - b.y := rfl
@[simp] theorem Vec2.v2_smul_x (c : ℝ) (v : Vec2) : (c • v).x = c * v.x := rfl
@[simp] theorem Vec2.v2_smul_y (c : ℝ) (v : Vec2) : (c • v).y = c * v.y := rfl

@[simp] theorem Vec3.zero_x : (0 : Vec3).x = 0 := rfl
@[simp] theorem Vec3.zero_y : (0 : Vec3).y = 0 := rfl
@[simp] theorem Vec3.zero_z : (0 : Vec3).z = 0 := rfl
@[simp] theorem Vec3.add_x (a b : Vec3) : (a + b).x = a.x + b.x := rfl
@[simp] theorem Vec3.add_y (a b : Vec3) : (a + b).y = a.y + b.y := rfl
@[simp] theorem Vec3.add_z (a b : Vec3) : (a + b).z = a.z + b.z := rfl
@[simp] theorem Vec3.sub_x (a b : Vec3) : (a - b).x = a.x - b.x := rfl
@[simp] theorem Vec3.sub_y (a b : Vec3) : (a - b).y = a.y - b.y := rfl
@[simp] theorem Vec3.sub_z (a b : Vec3) : (a - b).z = a.z - b.z := rfl
@[simp] theorem Vec3.smul_x (c : ℝ) (v : Vec3) : (c • v).x = c * v.x := rfl
@[simp] theorem Vec3.smul_y (c : ℝ) (v : Vec3) : (c • v).y = c * v.y := rfl
@[simp] theorem Vec3.smul_z (c : ℝ) (v : Vec3) : (c • v).z = c * v.z := rfl

/-- THREE.Vector3.dot. -/
def dotV (a b : Vec3) : ℝ := a.x * b.x + a.y * b.y + a.z * b.z

/-- THREE.Vector3.crossVectors. -/
def crossV (a b : Vec3) : Vec3 :=
  ⟨a.y * b.z - a.z * b.y, a.z * b.x - a.x * b.z, a.x * b.y - a.y * b.x⟩

/-- THREE.Vector3.lengthSq. -/
def normSq (v : Vec3) : ℝ := v.x ^ 2 + v.y ^ 2 + v.z ^ 2

/-- THREE.Vector3.length. -/
def lengthV (v : Vec3) : ℝ := Real.sqrt (normSq v)

/-- THREE.Vector2.lengthSq. -/
def normSq2 (v : Vec2) : ℝ := v.x ^ 2 + v.y ^ 2

/-- THREE.Vector3.divideScalar (r69): multiplies by the reciprocal, and
zeroes the vector when the scalar is zero. -/
def divideScalar (v : Vec3) (s : ℝ) : Vec3 :=
  if s = 0 then ⟨0, 0, 0⟩ else (1 / s) • v

/-- THREE.Vector3.normalize: divide by the length. -/
def normalizeV (v : Vec3) : Vec3 := divideScalar v (lengthV v)

/-- THREE.Vector3.setLength (r69): rescale to the requested length; a no-op
on the zero vector (the source guard `oldLength !== 0`; the additional guard
`l !== oldLength` skips a multiplication by 1 and does not change the
result). -/
def setLengthV (v : Vec3) (l : ℝ) : Vec3 :=
  if lengthV v = 0 then v else (l / lengthV v) • v

/-- A quaternion, as THREE.Quaternion. -/
@[ext] structure Quat where
  x : ℝ
  y : ℝ
  z : ℝ
  w : ℝ

/-- Squared norm of a quaternion. -/
def qnormSq (q : Quat) : ℝ := q.x ^ 2 + q.y ^ 2 + q.z ^ 2 + q.w ^ 2

/-- THREE.Quaternion.setFromAxisAngle: components from the half angle. -/
def setFromAxisAngle (a : Vec3) (angle : ℝ) : Quat :=
  let s := Real.sin (angle / 2)
  ⟨a.x * s, a.y * s, a.z * s, Real.cos (angle / 2)⟩

/-- THREE.Vector3.applyQuaternion (r69): the quaternion sandwich
q * v * conj q, written out component-wise exactly as in the library. -/
def applyQuaternion (q : Quat) (v : Vec3) : Vec3 :=
  let ix := q.w * v.x + q.y * v.z - q.z * v.y
  let iy := q.w * v.y + q.z * v.x - q.x * v.z
  let iz := q.w * v.z + q.x * v.y - q.y * v.x
  let iw := -q.x * v.x - q.y * v.y - q.z * v.z
  ⟨ix * q.w + iw * -q.x + iy * -q.z - iz * -q.y,
   iy * q.w + iw * -q.y + iz * -q.x - ix * -q.z,
   iz * q.w + iw * -q.z + ix * -q.y - iy * -q.x⟩

theorem normSq_nonneg (v : Vec3) : 0 ≤ normSq v := by
  unfold normSq; positivity

theorem normSq_eq_zero_iff (v : Vec3) : normSq v = 0 ↔ v = 0 := by
  constructor
  · intro h
    unfold normSq at h
    have hx : v.x = 0 := by nlinarith [sq_nonneg v.x, sq_nonneg v.y, sq_nonneg v.z]
    have hy : v.y = 0 := by nlinarith [sq_nonneg v.x, sq_nonneg v.y, sq_nonneg v.z]
    have hz : v.z = 0 := by nlinarith [sq_nonneg v.x, sq_nonneg v.y, sq_nonneg v.z]
    ext <;> simp [hx, hy, hz]
  · intro h; subst h; simp [normSq]

theorem lengthV_nonneg (v : Vec3) : 0 ≤ lengthV v := Real.sqrt_nonneg _

theorem lengthV_eq_zero_iff (v : Vec3) : lengthV v = 0 ↔ v = 0 := by
  rw [lengthV, Real.sqrt_eq_zero (normSq_nonneg v), normSq_eq_zero_iff]

theorem sq_lengthV (v : Vec3) : lengthV v ^ 2 = normSq v :=
  Real.sq_sqrt (normSq_nonneg v)

theorem mul_self_lengthV (v : Vec3) : lengthV v * lengthV v = normSq v :=
  Real.mul_self_sqrt (normSq_nonneg v)

theorem normSq_smul (c : ℝ) (v : Vec3) : normSq (c • v) = c ^ 2 * normSq v := by
  simp only [normSq, Vec3.smul_x, Vec3.smul_y, Vec3.smul_z]; ring

theorem lengthV_smul (c : ℝ) (v : Vec3) : lengthV (c • v) = |c| * lengthV v := by
  rw [lengthV, normSq_smul, Real.sqrt_mul (sq_nonneg c), Real.sqrt_sq_eq_abs, lengthV]

/-- Normalizing a nonzero vector produces a unit vector. -/
theorem normSq_normalizeV (v : Vec3) (hv : v ≠ 0) : normSq (normalizeV v) = 1 := by
  have hl : lengthV v ≠ 0 := fun h => hv ((lengthV_eq_zero_iff v).mp h)
  have hn : normSq v ≠ 0 := fun h => hv ((normSq_eq_zero_iff v).mp h)
  rw [normalizeV, divideScalar, if_neg hl, normSq_smul]
  rw [div_pow, one_pow, sq_lengthV]
  field_simp

/-- The quaternion sandwich scales the squared norm by the square of the
quaternion squared norm: a polynomial identity of the component formula. -/
theorem normSq_applyQuaternion (q : Quat) (v : Vec3) :
    normSq (applyQuaternion q v) = qnormSq q ^ 2 * normSq v := by
  simp only [applyQuaternion, normSq, qnormSq]
  ring

/-- setFromAxisAngle with a unit axis yields a unit quaternion. -/
theorem qnormSq_setFromAxisAngle (a : Vec3) (angle : ℝ) (ha : normSq a = 1) :
    qnormSq (setFromAxisAngle a angle) = 1 := by
  simp only [setFromAxisAngle, qnormSq, normSq] at *
  nlinarith [Real.sin_sq_add_cos_sq (angle / 2)]

end

noncomputable section

/-- The canvas bounding box, as the `canvasBox` field of the source. -/
structure Box where
  left : ℝ
  top : ℝ
  width : ℝ
  height : ℝ

/-- The planar (z = 0) point of `_getMouseProjectionOnBall`: the screen point
mapped into box-relative coordinates, before the lift onto the ball
(app.js line 83). -/
def ballPlanar (box : Box) (pageX pageY : ℝ) : Vec3 :=
  ⟨(pageX - box.width * (1/2) - box.left) / (box.width * (1/2)),
   (box.height * (1/2) + box.top - pageY) / (box.height * (1/2)),
   0⟩

/-- The hemisphere lift of `_getMouseProjectionOnBall` (app.js lines 84-90):
normalize onto the equator when the planar length exceeds 1, otherwise raise
z to sqrt(1 - length^2). -/
def mouseOnBall (box : Box) (pageX pageY : ℝ) : Vec3 :=
  let p := ballPlanar box pageX pageY
  let len := lengthV p
  if 1 < len then normalizeV p
  else { p with z := Real.sqrt (1 - len * len) }

/-- The camera-manipulation state of the `Chameleon` class: the camera pose
fields, the interaction buffers, and the speed settings
(app.js lines 41-52 and the `_camera` position/up). -/
structure CamState where
  position : Vec3
  target : Vec3
  up : Vec3
  eye : Vec3
  rotateStart : Vec3
  rotateEnd : Vec3
  zoomStart : ℝ
  zoomEnd : ℝ
  panStart : Vec2
  panEnd : Vec2
  rotateSpeed : ℝ
  zoomSpeed : ℝ
  panSpeed : ℝ
  canvasBox : Box

/-- `_getMouseProjectionOnBall` (app.js lines 78-97).  Besides returning the
projection vector, the source mutates the shared `_eye` field: line 91 sets it
to position - target and line 94 (`_eye.setLength(mouseOnBall.z)`) rescales it
to the z-coordinate of the ball point.  The result is the returned vector
paired with the updated state. -/
def getMouseProjectionOnBall (s : CamState) (pageX pageY : ℝ) : Vec3 × CamState :=
  let m := mouseOnBall s.canvasBox pageX pageY
  let eye1 := s.position - s.target
  let v := setLengthV s.up m.y + setLengthV (crossV s.up eye1) m.x + setLengthV eye1 m.z
  (v, { s with eye := setLengthV eye1 m.z })

/-- `rotateCamera` (app.js lines 98-112).  The JavaScript guard `if (angle)`
is falsy exactly when the computed angle is 0 or NaN; in exact arithmetic the
ratio never leaves [-1,1] (Cauchy-Schwarz), so NaN arises exactly from a
zero-length buffer vector (0/0 or x/0), and the guard is equivalent to: both
buffer vectors nonzero and the arccos nonzero. -/
def rotateCamera (s : CamState) : CamState :=
  let angle := Real.arccos (dotV s.rotateStart s.rotateEnd
    / lengthV s.rotateStart / lengthV s.rotateEnd)
  if s.rotateStart ≠ 0 ∧ s.rotateEnd ≠ 0 ∧ angle ≠ 0 then
    let ax := normalizeV (crossV s.rotateStart s.rotateEnd)
    let q := setFromAxisAngle ax (-(angle * s.rotateSpeed))
    let rotEnd := applyQuaternion q s.rotateEnd
    { s with eye := applyQuaternion q s.eye,
             up := applyQuaternion q s.up,
             rotateEnd := rotEnd,
             rotateStart := rotEnd }
  else s

/-- The zoom factor computed by `zoomCamera` (app.js line 290). -/
def zoomFactor (s : CamState) : ℝ := 1 + (s.zoomEnd - s.zoomStart) * s.zoomSpeed

/-- `zoomCamera` (app.js lines 289-295): scale the eye vector and commit
zoomStart := zoomEnd only when the factor is positive and not 1. -/
def zoomCamera (s : CamState) : CamState :=
  if zoomFactor s ≠ 1 ∧ 0 < zoomFactor s then
    { s with eye := zoomFactor s • s.eye, zoomStart := s.zoomEnd }
  else s

/-- `panCamera` (app.js lines 113-125).  The guard `if (mouseChange.lengthSq())`
is falsy exactly when the squared length is zero (finite inputs produce no
NaN). -/
def panCamera (s : CamState) : CamState :=
  let mc := s.panEnd - s.panStart
  if normSq2 mc ≠ 0 then
    let mc2 := (lengthV s.eye * s.panSpeed) • mc
    let pan := setLengthV (crossV s.eye s.up) mc2.x + setLengthV s.up mc2.y
    { s with position := s.position + pan,
             target := s.target + pan,
             panStart := s.panEnd }
  else s

/-- `update` (app.js lines 296-306): refresh eye from position - target,
apply rotate, zoom, pan, then reconstruct position = target + eye.  The
trailing `lookAt`, head-light copy and render calls touch only the camera
orientation quaternion, the light and the canvas, none of which are fields of
this state. -/
def updateCam (s : CamState) : CamState :=
  let s1 := { s with eye := s.position - s.target }
  let s2 := panCamera (zoomCamera (rotateCamera s1))
  { s2 with position := s2.target + s2.eye }

end

noncomputable section

/-- A mesh face, as THREE.Face3: three vertex indices. -/
structure Face where
  a : ℕ
  b : ℕ
  c : ℕ

/-- Which material / UV list the geometry currently references
(`_mesh.material` and `_geometry.faceVertexUvs[0]` are pointers into one of
the two owned sets). -/
inductive MatTag
  | viewing
  | drawing
deriving DecidableEq

/-- The per-face UV triple stored in a UV set entry. -/
def UvTriple := Vec2 × Vec2 × Vec2

/-- The texture-related state of the `Chameleon` class: the flag, the two UV
sets, the per-vertex drawing-projection buffer, the installed material/UV
pointers, the dirty flags, and the geometry data the recomputation reads. -/
structure TexState where
  usingViewingTexture : Bool
  material : MatTag
  installedUvs : MatTag
  uvsNeedUpdate : Bool
  drawingMapNeedsUpdate : Bool
  drawingCanvasWidth : ℝ
  drawingCanvasHeight : ℝ
  rendererWidth : ℝ
  rendererHeight : ℝ
  vertices : List Vec3
  faces : List Face
  viewingTextureUvs : List UvTriple
  drawingVertexUvs : List Vec3
  drawingTextureUvs : List UvTriple

/-- The indexed for-loop of the source, writing `g i` into slot `i` of a
pre-allocated buffer for `i = 0 .. n-1`.  The recursion peels the final
iteration: writes hit pairwise distinct indices, so this equals the source
loop order. -/
def writeLoop (g : ℕ → α) : ℕ → List α → List α
  | 0, buf => buf
  | n + 1, buf => (writeLoop g n buf).set n (g n)

/-- One vertex entry of the drawing-UV recomputation (app.js lines 330-332):
project through the active camera to normalized device coordinates, then
remap x and y by (c+1)/2; z keeps the projected value. -/
def remapProj (proj : Vec3 → Vec3) (v : Vec3) : Vec3 :=
  let p := proj v
  ⟨(p.x + 1) / 2, (p.y + 1) / 2, p.z⟩

/-- The Vector2.copy of a Vector3 performed by the face-UV copy loop
(app.js lines 335-337): only x and y are taken. -/
def vec2of (v : Vec3) : Vec2 := ⟨v.x, v.y⟩

/-- The face entry written by the copy loop (app.js lines 335-337): the three
drawing-vertex UVs selected by the face indices a, b, c, positionally. -/
def faceUv (dv : List Vec3) (f : Face) : UvTriple :=
  (vec2of (dv.getD f.a 0), vec2of (dv.getD f.b 0), vec2of (dv.getD f.c 0))

/-- `_useViewingTexture` (app.js lines 307-318): early return when the
viewing texture is already active; otherwise install the viewing material and
UV set and raise the uvsNeedUpdate flag. -/
def useViewingTexture (s : TexState) : TexState :=
  if s.usingViewingTexture then s
  else { s with material := MatTag.viewing,
                installedUvs := MatTag.viewing,
                uvsNeedUpdate := true,
                usingViewingTexture := true }

/-- `_useDrawingTexture` (app.js lines 319-343): early return when the
drawing texture is already active; otherwise snapshot the render into the
drawing canvas (sizes copied from the renderer, image copy external), project
every vertex through the active camera (`proj`), remap to texture space,
copy the projected coordinates into every face entry positionally, and
install the drawing material and UV set. -/
def useDrawingTexture (proj : Vec3 → Vec3) (s : TexState) : TexState :=
  if s.usingViewingTexture = false then s
  else
    let dv := writeLoop (fun i => remapProj proj (s.vertices.getD i 0))
      s.vertices.length s.drawingVertexUvs
    let uvs := writeLoop (fun i => faceUv dv (s.faces.getD i ⟨0, 0, 0⟩))
      s.faces.length s.drawingTextureUvs
    { s with drawingCanvasWidth := s.rendererWidth,
             drawingCanvasHeight := s.rendererHeight,
             drawingMapNeedsUpdate := true,
             drawingVertexUvs := dv,
             drawingTextureUvs := uvs,
             material := MatTag.drawing,
             installedUvs := MatTag.drawing,
             uvsNeedUpdate := true,
             usingViewingTexture := false }

/-- Frustum parameters of THREE.OrthographicCamera. -/
structure OrthoParams where
  left : ℝ
  right : ℝ
  top : ℝ
  bottom : ℝ
  near : ℝ
  far : ℝ

/-- The view-projection transform realized by THREE.Vector3.project for an
orthographic camera positioned at `p` looking along the negative z-axis at
the origin with up (0,1,0) (the pose of the spec scenario, where lookAt is
the pure translation by -p): camera-space coordinates v - p pushed through
the standard orthographic projection matrix. -/
def orthoProject (c : OrthoParams) (p : Vec3) (v : Vec3) : Vec3 :=
  let q := v - p
  ⟨2 / (c.right - c.left) * q.x - (c.right + c.left) / (c.right - c.left),
   2 / (c.top - c.bottom) * q.y - (c.top + c.bottom) / (c.top - c.bottom),
   -2 / (c.far - c.near) * q.z - (c.far + c.near) / (c.far - c.near)⟩

theorem writeLoop_length (g : ℕ → α) :
    ∀ n buf, (writeLoop g n buf).length = List.length buf := by
  intro n
  induction n with
  | zero => intro buf; rfl
  | succ n ih => intro buf; simp [writeLoop, List.length_set, ih]

theorem getD_set_self (l : List α) (i : ℕ) (a d : α) (h : i < l.length) :
    (l.set i a).getD i d = a := by
  rw [List.getD_eq_getElem?_getD, List.getElem?_set_self (by simpa using h)]
  rfl

theorem getD_set_ne (l : List α) (i j : ℕ) (a d : α) (h : i ≠ j) :
    (l.set i a).getD j d = l.getD j d := by
  rw [List.getD_eq_getElem?_getD, List.getElem?_set_ne h,
    ← List.getD_eq_getElem?_getD]

theorem writeLoop_getD (g : ℕ → α) (d : α) :
    ∀ n buf i, i < n → i < List.length buf → (writeLoop g n buf).getD i d = g i := by
  intro n
  induction n with
  | zero => intro buf i hi; exact absurd hi (Nat.not_lt_zero i)
  | succ n ih =>
    intro buf i hi hbuf
    unfold writeLoop
    rcases Nat.lt_or_ge i n with hlt | hge
    · rw [getD_set_ne _ _ _ _ _ (by omega)]
      exact ih buf i hlt hbuf
    · have hin : i = n := by omega
      subst hin
      exact getD_set_self _ _ _ _ (by rw [writeLoop_length]; exact hbuf)

end

noncomputable section

/-- The gesture states of the `Chameleon` class (app.js lines 1-7). -/
inductive ChameleonState
  | Idle
  | Draw
  | Pan
  | Rotate
deriving DecidableEq

/-- The full modelled state of the `Chameleon` class: the gesture state, the
camera-manipulation slice and the texture slice. -/
structure ChameleonS where
  state : ChameleonState
  cam : CamState
  tex : TexState

/-- A wheel event as read by `Chameleon._mousewheel`: shift flag plus the
`wheelDelta` / `detail` fields (0 models an absent field, which is falsy,
like a 0 value, in the source truthiness tests). -/
structure WheelEvent3 where
  shiftKey : Bool
  wheelDelta : ℝ
  detail : ℝ

/-- `Chameleon._mousewheel` (app.js lines 195-210): rejected unless the state
is Idle and shift is held; otherwise force the viewing texture and accumulate
`_zoomStart += delta * 0.01` with delta from wheelDelta/40 or -detail/3. -/
def chameleonMousewheel (ev : WheelEvent3) (s : ChameleonS) : ChameleonS :=
  if s.state ≠ ChameleonState.Idle ∨ ev.shiftKey = false then s
  else
    let tex := useViewingTexture s.tex
    let delta := if ev.wheelDelta ≠ 0 then ev.wheelDelta / 40
      else if ev.detail ≠ 0 then -ev.detail / 3 else 0
    { s with tex := tex,
             cam := { s.cam with zoomStart := s.cam.zoomStart + delta * 0.01 } }

end

/-- The gesture states of the `Controls` class (app.js second document,
lines 375-377). -/
inductive ControlsState
  | Idle
  | Draw
  | View
deriving DecidableEq

/-- A mouse event as read by `Controls._mousedown`: modifier, button index
and page coordinates. -/
structure CMouseEvent where
  shiftKey : Bool
  button : ℕ
  pageX : ℚ
  pageY : ℚ

/-- A wheel event as read by `Controls._mousewheel`. -/
structure CWheelEvent where
  shiftKey : Bool
  wheelDelta : ℚ

/-- The modelled state of the `Controls` class: gesture state, the
perspective-view flag, the texture-mode flag, and the zoom accumulator of
each camera controller. -/
structure ControlsS where
  state : ControlsState
  perspectiveView : Bool
  usingViewingTexture : Bool
  perspZoomEnd : ℚ
  orthoZoomEnd : ℚ
deriving DecidableEq

/-- `Controls._useViewingTexture` (app.js lines 477-485): early return when
already viewing; otherwise delegate to the TextureManager (whose state is
outside this slice) and set the flag. -/
def controlsUseViewingTexture (s : ControlsS) : ControlsS :=
  if s.usingViewingTexture then s else { s with usingViewingTexture := true }

/-- `Controls._useDrawingTexture` (app.js lines 487-495): early return when
already drawing; otherwise delegate to the TextureManager and clear the
flag. -/
def controlsUseDrawingTexture (s : ControlsS) : ControlsS :=
  if s.usingViewingTexture = false then s
  else { s with usingViewingTexture := false }

/-- `Controls._mousedown` (app.js lines 497-525): from Idle, perspective view
enters View, shift in orthographic view enters View, otherwise Draw; each
branch also switches the texture mode.  The forwarding to the camera controls
and the brush-stroke start touch no field of this slice. -/
def controlsMousedown (ev : CMouseEvent) (s : ControlsS) : ControlsS :=
  if s.state ≠ ControlsState.Idle then s
  else if s.perspectiveView then
    controlsUseViewingTexture { s with state := ControlsState.View }
  else if ev.shiftKey then
    controlsUseViewingTexture { s with state := ControlsState.View }
  else
    controlsUseDrawingTexture { s with state := ControlsState.Draw }

/-- Modelled from the spec: the camera controllers (camera-controls.ts, not
under src/) route a wheel event into their zoom accumulator; per the spec, a
wheel event with `wheelDelta` w advances the accumulator by w/40 * 0.01. -/
def controllerOnMouseWheel (zoomEnd : ℚ) (wheelDelta : ℚ) : ℚ :=
  zoomEnd + wheelDelta / 40 * (1 / 100)

/-- The zoom accumulator of the controller the `Controls` class currently
routes to (perspective when the perspective view is active, orthographic
otherwise). -/
def activeZoomEnd (s : ControlsS) : ℚ :=
  if s.perspectiveView then s.perspZoomEnd else s.orthoZoomEnd

/-- `Controls._mousewheel` (app.js lines 570-584): rejected when a draw
gesture is in progress or when in orthographic view without shift; otherwise
force the viewing texture and route the event to the active camera
controller. -/
def controlsMousewheel (ev : CWheelEvent) (s : ControlsS) : ControlsS :=
  if s.state = ControlsState.Draw ∨ (s.perspectiveView = false ∧ ev.shiftKey = false) then s
  else
    let s1 := controlsUseViewingTexture s
    if s1.perspectiveView then
      { s1 with perspZoomEnd := controllerOnMouseWheel s1.perspZoomEnd ev.wheelDelta }
    else
      { s1 with orthoZoomEnd := controllerOnMouseWheel s1.orthoZoomEnd ev.wheelDelta }

/-- C1: on every mousedown received while the state is Idle, the Controls
state machine transitions to exactly one of Draw or View — View exactly when
the perspective view is active or the shift modifier is held (the
secondary-button pan case arises only inside those branches, the handler
never inspects the button), Draw exactly when the orthographic view is active
with no modifier — and after the handler returns the texture-mode flag
matches the new state (View uses the viewing texture, Draw the drawing
texture). -/
theorem mousedown_idle_draw_or_view (ev : CMouseEvent) (s : ControlsS)
    (h : s.state = ControlsState.Idle) :
    ((controlsMousedown ev s).state = ControlsState.Draw ∨
      (controlsMousedown ev s).state = ControlsState.View)
    ∧ ((controlsMousedown ev s).state = ControlsState.View ↔
        (s.perspectiveView = true ∨ ev.shiftKey = true))
    ∧ ((controlsMousedown ev s).state = ControlsState.Draw ↔
        (s.perspectiveView = false ∧ ev.shiftKey = false))
    ∧ ((controlsMousedown ev s).state = ControlsState.View →
        (controlsMousedown ev s).usingViewingTexture = true)
    ∧ ((controlsMousedown ev s).state = ControlsState.Draw →
        (controlsMousedown ev s).usingViewingTexture = false) := by
  rcases s with ⟨st, pv, uvt, pz, oz⟩
  rcases ev with ⟨sh, b, px, py⟩
  subst h
  cases pv <;> cases sh <;> cases uvt <;>
    simp [controlsMousedown, controlsUseViewingTexture, controlsUseDrawingTexture]

/-- Witness for C1 at a concrete Idle state and event. -/
theorem mousedown_idle_draw_or_view_witness :
    ((controlsMousedown ⟨false, 0, 3, 4⟩ ⟨ControlsState.Idle, false, true, 0, 0⟩).state
        = ControlsState.Draw ∨
      (controlsMousedown ⟨false, 0, 3, 4⟩ ⟨ControlsState.Idle, false, true, 0, 0⟩).state
        = ControlsState.View)
    ∧ ((controlsMousedown ⟨false, 0, 3, 4⟩ ⟨ControlsState.Idle, false, true, 0, 0⟩).state
          = ControlsState.View ↔
        ((false : Bool) = true ∨ (false : Bool) = true))
    ∧ ((controlsMousedown ⟨false, 0, 3, 4⟩ ⟨ControlsState.Idle, false, true, 0, 0⟩).state
          = ControlsState.Draw ↔
        ((false : Bool) = false ∧ (false : Bool) = false))
    ∧ ((controlsMousedown ⟨false, 0, 3, 4⟩ ⟨ControlsState.Idle, false, true, 0, 0⟩).state
          = ControlsState.View →
        (controlsMousedown ⟨false, 0, 3, 4⟩ ⟨ControlsState.Idle, false, true, 0, 0⟩).usingViewingTexture = true)
    ∧ ((controlsMousedown ⟨false, 0, 3, 4⟩ ⟨ControlsState.Idle, false, true, 0, 0⟩).state
          = ControlsState.Draw →
        (controlsMousedown ⟨false, 0, 3, 4⟩ ⟨ControlsState.Idle, false, true, 0, 0⟩).usingViewingTexture = false) :=
  mousedown_idle_draw_or_view ⟨false, 0, 3, 4⟩ ⟨ControlsState.Idle, false, true, 0, 0⟩ rfl

/-- C6: zoomCamera computes factor = 1 + (zoomEnd - zoomStart) * zoomSpeed;
when the factor is nonpositive nothing is mutated, and when the factor is
positive and not 1 the eye vector is scaled by the factor and zoomStart is
reset to zoomEnd (all other fields unchanged). -/
theorem zoomCamera_factor_policy (s : CamState) :
    (zoomFactor s ≤ 0 → zoomCamera s = s)
    ∧ (0 < zoomFactor s → zoomFactor s ≠ 1 →
        (zoomCamera s).eye = zoomFactor s • s.eye
        ∧ (zoomCamera s).zoomStart = s.zoomEnd
        ∧ (zoomCamera s).position = s.position
        ∧ (zoomCamera s).target = s.target
        ∧ (zoomCamera s).up = s.up
        ∧ (zoomCamera s).zoomEnd = s.zoomEnd) := by
  constructor
  · intro hle
    rw [zoomCamera, if_neg]
    rintro ⟨-, hpos⟩
    exact absurd hle (not_le.mpr hpos)
  · intro hpos hne
    rw [zoomCamera, if_pos ⟨hne, hpos⟩]
    exact ⟨rfl, rfl, rfl, rfl, rfl, rfl⟩

/-- A concrete camera state used by the witnesses: the constructor pose
(camera on the z-axis, default speeds from app.js lines 41-43) with an
800x600 canvas box. -/
def camA : CamState :=
  { position := ⟨0, 0, 5⟩, target := 0, up := ⟨0, 1, 0⟩, eye := ⟨0, 0, 5⟩,
    rotateStart := ⟨1, 0, 0⟩, rotateEnd := ⟨1, 0, 0⟩,
    zoomStart := 0, zoomEnd := 0, panStart := 0, panEnd := 0,
    rotateSpeed := 1.5, zoomSpeed := 1.2, panSpeed := 0.8,
    canvasBox := ⟨0, 0, 800, 600⟩ }

/-- Witness for C6: with zoomEnd = -2 the factor is 1 - 2 * 1.2 ≤ 0 and the
state is untouched; with zoomEnd = 1 the factor is 2.2 and the eye is scaled
while zoomStart is committed. -/
theorem zoomCamera_factor_policy_witness :
    zoomCamera { camA with zoomEnd := -2 } = { camA with zoomEnd := -2 }
    ∧ (zoomCamera { camA with zoomEnd := 1 }).eye
        = zoomFactor { camA with zoomEnd := 1 } • ({ camA with zoomEnd := 1 } : CamState).eye
    ∧ (zoomCamera { camA with zoomEnd := 1 }).zoomStart
        = ({ camA with zoomEnd := 1 } : CamState).zoomEnd := by
  refine ⟨(zoomCamera_factor_policy _).1 (by norm_num [zoomFactor, camA]), ?_, ?_⟩
  · exact ((zoomCamera_factor_policy _).2 (by norm_num [zoomFactor, camA])
      (by norm_num [zoomFactor, camA])).1
  · exact ((zoomCamera_factor_policy _).2 (by norm_num [zoomFactor, camA])
      (by norm_num [zoomFactor, camA])).2.1

/-- C7: when the pan buffer start equals its end, panCamera changes nothing;
otherwise it translates position and target by the same pan vector, so the
difference position - target is unaffected (and the stored eye field is
untouched by panning); and the per-frame update reconstructs
position = target + eye after applying rotation, zoom and pan. -/
theorem panCamera_translates_and_update_reconstructs (s : CamState) :
    (s.panEnd = s.panStart → panCamera s = s)
    ∧ (panCamera s).position - (panCamera s).target = s.position - s.target
    ∧ (panCamera s).eye = s.eye
    ∧ (updateCam s).position = (updateCam s).target + (updateCam s).eye := by
  refine ⟨?_, ?_, ?_, rfl⟩
  · intro h
    rw [panCamera, if_neg]
    simp [h, normSq2]
  · by_cases hc : normSq2 (s.panEnd - s.panStart) ≠ 0
    · simp only [panCamera, if_pos hc]
      ext <;> simp
    · simp only [panCamera, if_neg hc]
  · by_cases hc : normSq2 (s.panEnd - s.panStart) ≠ 0
    · simp only [panCamera, if_pos hc]
    · simp only [panCamera, if_neg hc]

/-- Witness for C7 at the concrete state camA, whose pan buffer is empty. -/
theorem panCamera_translates_witness :
    panCamera camA = camA
    ∧ (panCamera camA).position - (panCamera camA).target
        = camA.position - camA.target
    ∧ (updateCam camA).position = (updateCam camA).target + (updateCam camA).eye := by
  refine ⟨(panCamera_translates_and_update_reconstructs camA).1 (by simp [camA]), ?_, ?_⟩
  · exact (panCamera_translates_and_update_reconstructs camA).2.1
  · exact (panCamera_translates_and_update_reconstructs camA).2.2.2

/-- C5: if the rotation buffer start vector equals its end vector, the
computed angle is 0 (exact arithmetic; in the source a NaN from a zero-length
buffer is equally falsy), the guard rejects, and rotateCamera leaves the
whole state — eye, up and both rotate buffers — unchanged, writing no
degenerate value anywhere. -/
theorem rotateCamera_identity_of_equal_buffers (s : CamState)
    (h : s.rotateStart = s.rotateEnd) : rotateCamera s = s := by
  have hcond : ¬(s.rotateStart ≠ 0 ∧ s.rotateEnd ≠ 0 ∧
      Real.arccos (dotV s.rotateStart s.rotateEnd
        / lengthV s.rotateStart / lengthV s.rotateEnd) ≠ 0) := by
    rintro ⟨h1, h2, h3⟩
    apply h3
    rw [← h]
    have hns : normSq s.rotateStart ≠ 0 :=
      fun hh => h1 ((normSq_eq_zero_iff _).mp hh)
    have hd : dotV s.rotateStart s.rotateStart = normSq s.rotateStart := by
      unfold dotV normSq; ring
    rw [hd, div_div, mul_self_lengthV, div_self hns, Real.arccos_one]
  simp only [rotateCamera, if_neg hcond]

/-- Witness for C5: a concrete state with equal rotate buffers is fixed by
rotateCamera. -/
theorem rotateCamera_identity_witness : rotateCamera camA = camA :=
  rotateCamera_identity_of_equal_buffers camA rfl

/-- C10 (amended): rotateCamera changes the eye and up vectors only by a
single quaternion sandwich, and whenever the buffered ball vectors span a
plane (nonzero cross product) the axis normalizes to a unit vector, the
quaternion is a unit quaternion, and the squared lengths of eye and up are
preserved, as are position and target; anti-parallel buffers (zero cross
product with nonzero angle) degenerate the axis to zero and the sandwich
rescales the vectors instead. -/
theorem rotateCamera_isometry (s : CamState)
    (hc : crossV s.rotateStart s.rotateEnd ≠ 0) :
    normSq (rotateCamera s).eye = normSq s.eye
    ∧ normSq (rotateCamera s).up = normSq s.up
    ∧ (rotateCamera s).position = s.position
    ∧ (rotateCamera s).target = s.target := by
  by_cases hcond : s.rotateStart ≠ 0 ∧ s.rotateEnd ≠ 0 ∧
      Real.arccos (dotV s.rotateStart s.rotateEnd
        / lengthV s.rotateStart / lengthV s.rotateEnd) ≠ 0
  · simp only [rotateCamera, if_pos hcond]
    have haxis : normSq (normalizeV (crossV s.rotateStart s.rotateEnd)) = 1 :=
      normSq_normalizeV _ hc
    have hq := qnormSq_setFromAxisAngle
      (normalizeV (crossV s.rotateStart s.rotateEnd))
      (-(Real.arccos (dotV s.rotateStart s.rotateEnd
        / lengthV s.rotateStart / lengthV s.rotateEnd) * s.rotateSpeed)) haxis
    refine ⟨?_, ?_, trivial, trivial⟩ <;>
      rw [normSq_applyQuaternion, hq, one_pow, one_mul]
  · have hid : rotateCamera s = s := by
      simp only [rotateCamera]
      rw [if_neg hcond]
    rw [hid]
    exact ⟨rfl, rfl, rfl, rfl⟩

/-- Witness for C10 at a concrete state with independent ball vectors. -/
theorem rotateCamera_isometry_witness :
    normSq (rotateCamera { camA with rotateEnd := ⟨0, 1, 0⟩ }).eye
        = normSq ({ camA with rotateEnd := ⟨0, 1, 0⟩ } : CamState).eye
    ∧ normSq (rotateCamera { camA with rotateEnd := ⟨0, 1, 0⟩ }).up
        = normSq ({ camA with rotateEnd := ⟨0, 1, 0⟩ } : CamState).up := by
  have h := rotateCamera_isometry { camA with rotateEnd := ⟨0, 1, 0⟩ }
    (by simp [camA, crossV, Vec3.ext_iff])
  exact ⟨h.1, h.2.1⟩

/-- The concrete state refuting C10 as stated: anti-parallel rotate buffers
(reached by dragging from the far left to the far right of the ball), the
constructor rotate speed 1.5, and an eye of length 2. -/
def s10 : CamState :=
  { position := ⟨0, 0, 5⟩, target := 0, up := ⟨0, 1, 0⟩, eye := ⟨0, 0, 2⟩,
    rotateStart := ⟨1, 0, 0⟩, rotateEnd := ⟨-1, 0, 0⟩,
    zoomStart := 0, zoomEnd := 0, panStart := 0, panEnd := 0,
    rotateSpeed := 1.5, zoomSpeed := 1.2, panSpeed := 0.8,
    canvasBox := ⟨0, 0, 800, 600⟩ }

/-- Counterexample to C10 as stated: with anti-parallel buffered ball vectors
the angle is pi, the guard passes, the axis normalizes to the zero vector,
the quaternion is not unit, and rotateCamera changes the squared length of
the eye vector (from 4 to 1). -/
theorem rotateCamera_antiparallel_counterexample :
    normSq (rotateCamera s10).eye ≠ normSq s10.eye := by
  have hlen1 : lengthV ⟨1, 0, 0⟩ = 1 := by
    rw [lengthV]; norm_num [normSq]
  have hlen2 : lengthV ⟨-1, 0, 0⟩ = 1 := by
    rw [lengthV]; norm_num [normSq]
  have hratio : dotV s10.rotateStart s10.rotateEnd
      / lengthV s10.rotateStart / lengthV s10.rotateEnd = -1 := by
    show dotV ⟨1, 0, 0⟩ ⟨-1, 0, 0⟩ / lengthV ⟨1, 0, 0⟩ / lengthV ⟨-1, 0, 0⟩ = -1
    rw [hlen1, hlen2]; norm_num [dotV]
  have hcond : s10.rotateStart ≠ 0 ∧ s10.rotateEnd ≠ 0 ∧
      Real.arccos (dotV s10.rotateStart s10.rotateEnd
        / lengthV s10.rotateStart / lengthV s10.rotateEnd) ≠ 0 := by
    refine ⟨by simp [s10, Vec3.ext_iff], by simp [s10, Vec3.ext_iff], ?_⟩
    rw [hratio, Real.arccos_neg_one]
    exact Real.pi_ne_zero
  have hcross : crossV s10.rotateStart s10.rotateEnd = (0 : Vec3) := by
    show crossV ⟨1, 0, 0⟩ ⟨-1, 0, 0⟩ = (0 : Vec3)
    simp [crossV, Vec3.ext_iff]
  have haxis : normalizeV (crossV s10.rotateStart s10.rotateEnd) = ⟨0, 0, 0⟩ := by
    rw [hcross]
    rw [normalizeV, divideScalar, if_pos]
    rw [lengthV]
    norm_num [normSq]
  have hw : Real.cos (-(Real.arccos (dotV s10.rotateStart s10.rotateEnd
      / lengthV s10.rotateStart / lengthV s10.rotateEnd) * s10.rotateSpeed) / 2)
      = -(Real.sqrt 2 / 2) := by
    rw [hratio, Real.arccos_neg_one]
    have h34 : -(Real.pi * s10.rotateSpeed) / 2 = -(Real.pi - Real.pi / 4) := by
      show -(Real.pi * (1.5 : ℝ)) / 2 = -(Real.pi - Real.pi / 4)
      ring
    rw [h34, Real.cos_neg, Real.cos_pi_sub, Real.cos_pi_div_four]
  have hqn : qnormSq (setFromAxisAngle
      (normalizeV (crossV s10.rotateStart s10.rotateEnd))
      (-(Real.arccos (dotV s10.rotateStart s10.rotateEnd
        / lengthV s10.rotateStart / lengthV s10.rotateEnd) * s10.rotateSpeed)))
      = 1 / 2 := by
    rw [haxis]
    simp only [setFromAxisAngle, qnormSq]
    rw [hw]
    rw [neg_pow, div_pow, Real.sq_sqrt (by norm_num : (0:ℝ) ≤ 2)]
    norm_num
  simp only [rotateCamera, if_pos hcond]
  rw [normSq_applyQuaternion, hqn]
  show (1 / 2 : ℝ) ^ 2 * normSq s10.eye ≠ normSq s10.eye
  have he : normSq s10.eye = 4 := by
    show normSq ⟨0, 0, 2⟩ = 4
    norm_num [normSq]
  rw [he]
  norm_num

/-- C8 (amended): wheel events are rejected while a draw gesture is in
progress (state Draw) and in orthographic view without the modifier — there
the Controls handler changes nothing; in every other situation (Idle or a
View gesture, with the perspective view active or the modifier held) the
handler forces the viewing texture and routes the increment
wheelDelta/40 * 0.01 into the active controller zoom accumulator.  The
Chameleon-class handler accepts wheel events only while Idle: in any other
state it changes nothing. -/
theorem mousewheel_gesture_policy :
    (∀ (ev : CWheelEvent) (s : ControlsS), s.state = ControlsState.Draw →
        controlsMousewheel ev s = s)
    ∧ (∀ (ev : CWheelEvent) (s : ControlsS),
        s.perspectiveView = false → ev.shiftKey = false →
        controlsMousewheel ev s = s)
    ∧ (∀ (ev : CWheelEvent) (s : ControlsS), s.state ≠ ControlsState.Draw →
        (s.perspectiveView = true ∨ ev.shiftKey = true) →
        (controlsMousewheel ev s).usingViewingTexture = true
        ∧ activeZoomEnd (controlsMousewheel ev s)
            = activeZoomEnd s + ev.wheelDelta / 40 * (1 / 100))
    ∧ (∀ (ev : WheelEvent3) (c : ChameleonS), c.state ≠ ChameleonState.Idle →
        chameleonMousewheel ev c = c) := by
  refine ⟨?_, ?_, ?_, ?_⟩
  · intro ev s h
    rw [controlsMousewheel, if_pos (Or.inl h)]
  · intro ev s h1 h2
    rw [controlsMousewheel, if_pos (Or.inr ⟨h1, h2⟩)]
  · intro ev s hdraw hacc
    rcases s with ⟨st, pv, uvt, pz, oz⟩
    rcases ev with ⟨sh, wd⟩
    cases pv <;> cases sh <;> cases uvt <;>
      simp_all [controlsMousewheel, controlsUseViewingTexture,
        controllerOnMouseWheel, activeZoomEnd]
  · intro ev c h
    rw [chameleonMousewheel, if_pos (Or.inl h)]

/-- A concrete texture state used by the witnesses: one vertex at the origin,
one face over it, viewing texture active, placeholder UV sets as allocated by
the constructor. -/
def texA : TexState :=
  { usingViewingTexture := true, material := MatTag.viewing,
    installedUvs := MatTag.viewing, uvsNeedUpdate := true,
    drawingMapNeedsUpdate := false,
    drawingCanvasWidth := 0, drawingCanvasHeight := 0,
    rendererWidth := 800, rendererHeight := 600,
    vertices := [⟨0, 0, 0⟩], faces := [⟨0, 0, 0⟩],
    viewingTextureUvs := [(⟨0.5, 0.5⟩, ⟨0.5, 0.5⟩, ⟨0.5, 0.5⟩)],
    drawingVertexUvs := [⟨0.5, 0.5, 0⟩],
    drawingTextureUvs := [(⟨0.5, 0.5⟩, ⟨0.5, 0.5⟩, ⟨0.5, 0.5⟩)] }

/-- A concrete Chameleon-class state in the middle of a rotate gesture. -/
def chamA : ChameleonS := { state := ChameleonState.Rotate, cam := camA, tex := texA }

/-- Witness for C8: a Draw-state wheel is dropped; an Idle orthographic wheel
with shift routes 120/40 * 0.01 = 0.03 into the orthographic accumulator and
forces the viewing texture; a Chameleon-class wheel during a rotate gesture
is dropped. -/
theorem mousewheel_gesture_policy_witness :
    controlsMousewheel ⟨true, 120⟩ ⟨ControlsState.Draw, false, false, 0, 0⟩
        = ⟨ControlsState.Draw, false, false, 0, 0⟩
    ∧ (controlsMousewheel ⟨true, 120⟩ ⟨ControlsState.Idle, false, true, 0, 5⟩).usingViewingTexture
        = true
    ∧ activeZoomEnd (controlsMousewheel ⟨true, 120⟩ ⟨ControlsState.Idle, false, true, 0, 5⟩)
        = activeZoomEnd ⟨ControlsState.Idle, false, true, 0, 5⟩ + 120 / 40 * (1 / 100)
    ∧ chameleonMousewheel ⟨true, 120, 0⟩ chamA = chamA := by
  refine ⟨mousewheel_gesture_policy.1 ⟨true, 120⟩ _ rfl, ?_, ?_,
    mousewheel_gesture_policy.2.2.2 ⟨true, 120, 0⟩ chamA (by simp [chamA])⟩
  · exact (mousewheel_gesture_policy.2.2.1 ⟨true, 120⟩ _ (by simp) (Or.inr rfl)).1
  · exact (mousewheel_gesture_policy.2.2.1 ⟨true, 120⟩ _ (by simp) (Or.inr rfl)).2

/-- Counterexample to C8 as stated: from Idle with the perspective view
active, a mousedown starts a View gesture; a wheel event arriving during
that gesture is processed, not dropped — the perspective zoom accumulator
moves from 0 to 0.03. -/
theorem mousewheel_view_gesture_counterexample :
    (controlsMousedown ⟨false, 0, 400, 300⟩ ⟨ControlsState.Idle, true, true, 0, 0⟩).state
      = ControlsState.View
    ∧ (controlsMousewheel ⟨false, 120⟩
        (controlsMousedown ⟨false, 0, 400, 300⟩ ⟨ControlsState.Idle, true, true, 0, 0⟩)).perspZoomEnd
      ≠ (controlsMousedown ⟨false, 0, 400, 300⟩ ⟨ControlsState.Idle, true, true, 0, 0⟩).perspZoomEnd := by
  constructor
  · rfl
  · simp [controlsMousedown, controlsMousewheel, controlsUseViewingTexture,
      controllerOnMouseWheel]

/-- C3: switching to the texture mode that is already active is a no-op —
useViewingTexture while viewing and useDrawingTexture while drawing return
the state unchanged in every field — a viewing-texture switch never touches
the drawing UV buffers (so View, Idle, View without an intervening Draw
leaves the drawing UV set bit-for-bit unchanged), and after the one
recomputation performed on a genuine Idle-to-Draw transition a repeated
drawing switch is again a no-op (exactly one recomputation per
transition). -/
theorem texture_switch_idempotence (proj : Vec3 → Vec3) (s : TexState) :
    (s.usingViewingTexture = true → useViewingTexture s = s)
    ∧ (s.usingViewingTexture = false → useDrawingTexture proj s = s)
    ∧ (useViewingTexture s).drawingTextureUvs = s.drawingTextureUvs
    ∧ (useViewingTexture s).drawingVertexUvs = s.drawingVertexUvs
    ∧ (s.usingViewingTexture = true →
        useDrawingTexture proj (useDrawingTexture proj s) = useDrawingTexture proj s) := by
  have noop : ∀ t : TexState, t.usingViewingTexture = false →
      useDrawingTexture proj t = t := by
    intro t ht
    rw [useDrawingTexture, if_pos ht]
  refine ⟨?_, noop s, ?_, ?_, ?_⟩
  · intro h
    rw [useViewingTexture, if_pos h]
  · unfold useViewingTexture; split <;> rfl
  · unfold useViewingTexture; split <;> rfl
  · intro h
    apply noop
    rw [useDrawingTexture, if_neg (by simp [h])]

/-- Witness for C3 at the concrete state texA (viewing active) and its
drawing-active variant. -/
theorem texture_switch_idempotence_witness :
    useViewingTexture texA = texA
    ∧ useDrawingTexture (fun v => v) { texA with usingViewingTexture := false }
        = { texA with usingViewingTexture := false }
    ∧ useDrawingTexture (fun v => v) (useDrawingTexture (fun v => v) texA)
        = useDrawingTexture (fun v => v) texA := by
  refine ⟨(texture_switch_idempotence (fun v => v) texA).1 rfl,
    (texture_switch_idempotence (fun v => v) _).2.1 rfl,
    (texture_switch_idempotence (fun v => v) texA).2.2.2.2 rfl⟩

/-- C2: preparing the drawing texture projects every mesh vertex through the
active camera to normalized device coordinates and remaps x and y by (c+1)/2
into [0,1] texture space, and writes into every face entry, positionally, the
projected UVs of the vertex indices a, b, c of the face; in the scenario of an
orthographic camera at (0,0,100) looking at the origin (symmetric frustum), a
vertex at the origin projects to UV (0.5, 0.5). -/
theorem useDrawingTexture_recomputes_uvs (proj : Vec3 → Vec3) (s : TexState)
    (hview : s.usingViewingTexture = true)
    (hdv : s.drawingVertexUvs.length = s.vertices.length)
    (hft : s.drawingTextureUvs.length = s.faces.length) :
    (∀ i, i < s.vertices.length →
      (useDrawingTexture proj s).drawingVertexUvs.getD i 0
        = remapProj proj (s.vertices.getD i 0))
    ∧ (∀ i, i < s.faces.length →
      (useDrawingTexture proj s).drawingTextureUvs.getD i ⟨0, 0, 0⟩
        = faceUv (useDrawingTexture proj s).drawingVertexUvs (s.faces.getD i ⟨0, 0, 0⟩))
    ∧ (∀ prms : OrthoParams, prms.left = -prms.right → prms.bottom = -prms.top →
        vec2of (remapProj (orthoProject prms ⟨0, 0, 100⟩) ⟨0, 0, 0⟩) = ⟨1/2, 1/2⟩) := by
  have key : useDrawingTexture proj s =
      { s with drawingCanvasWidth := s.rendererWidth,
               drawingCanvasHeight := s.rendererHeight,
               drawingMapNeedsUpdate := true,
               drawingVertexUvs := writeLoop
                 (fun i => remapProj proj (s.vertices.getD i 0))
                 s.vertices.length s.drawingVertexUvs,
               drawingTextureUvs := writeLoop
                 (fun i => faceUv (writeLoop
                   (fun i => remapProj proj (s.vertices.getD i 0))
                   s.vertices.length s.drawingVertexUvs) (s.faces.getD i ⟨0, 0, 0⟩))
                 s.faces.length s.drawingTextureUvs,
               material := MatTag.drawing,
               installedUvs := MatTag.drawing,
               uvsNeedUpdate := true,
               usingViewingTexture := false } := by
    rw [useDrawingTexture, if_neg (by simp [hview])]
  refine ⟨?_, ?_, ?_⟩
  · intro i hi
    rw [key]
    exact writeLoop_getD _ _ _ _ i hi (hdv ▸ hi)
  · intro i hi
    rw [key]
    exact writeLoop_getD _ _ _ _ i hi (hft ▸ hi)
  · intro prms h1 h2
    simp only [orthoProject, remapProj, vec2of]
    rw [h1, h2]
    ext <;> simp

/-- The orthographic frustum of the spec scenario (symmetric half-extents
1.5, as set up from a unit bounding-ball radius) and its camera at
(0,0,100). -/
def prmsA : OrthoParams := ⟨-1.5, 1.5, 1.5, -1.5, 0.1, 2000⟩

/-- The concrete view-projection used by the C2 witness. -/
noncomputable def projA : Vec3 → Vec3 := orthoProject prmsA ⟨0, 0, 100⟩

/-- Witness for C2 at the one-vertex one-face state texA under the concrete
orthographic camera. -/
theorem useDrawingTexture_recomputes_uvs_witness :
    (useDrawingTexture projA texA).drawingVertexUvs.getD 0 0
        = remapProj projA (texA.vertices.getD 0 0)
    ∧ (useDrawingTexture projA texA).drawingTextureUvs.getD 0 ⟨0, 0, 0⟩
        = faceUv (useDrawingTexture projA texA).drawingVertexUvs
            (texA.faces.getD 0 ⟨0, 0, 0⟩)
    ∧ vec2of (remapProj (orthoProject prmsA ⟨0, 0, 100⟩) ⟨0, 0, 0⟩) = ⟨1/2, 1/2⟩ := by
  have h := useDrawingTexture_recomputes_uvs projA texA rfl rfl rfl
  exact ⟨h.1 0 (by norm_num [texA]), h.2.1 0 (by norm_num [texA]),
    h.2.2 prmsA (by norm_num [prmsA]) (by norm_num [prmsA])⟩

/-- C4: the trackball projection lifts every screen point to a well-defined
point of the closed unit hemisphere: when the box-relative planar length
exceeds 1 the point is normalized onto the equator (length exactly 1 and
z-coordinate 0), otherwise the z-coordinate is sqrt(1 - length^2), which is
non-negative, and the lifted point again has length 1. -/
theorem mouseOnBall_on_hemisphere (box : Box) (pageX pageY : ℝ)
    (hw : 0 < box.width) (hh : 0 < box.height) :
    (1 < lengthV (ballPlanar box pageX pageY) →
      lengthV (mouseOnBall box pageX pageY) = 1
      ∧ (mouseOnBall box pageX pageY).z = 0)
    ∧ (lengthV (ballPlanar box pageX pageY) ≤ 1 →
      (mouseOnBall box pageX pageY).z
          = Real.sqrt (1 - lengthV (ballPlanar box pageX pageY)
              * lengthV (ballPlanar box pageX pageY))
      ∧ 0 ≤ (mouseOnBall box pageX pageY).z
      ∧ lengthV (mouseOnBall box pageX pageY) = 1) := by
  set p := ballPlanar box pageX pageY with hp
  constructor
  · intro hgt
    have hne : lengthV p ≠ 0 := by
      intro h0; rw [h0] at hgt; linarith
    have hpnz : p ≠ 0 := fun h0 => hne (by rw [h0, lengthV]; simp [normSq])
    rw [mouseOnBall, ← hp, if_pos hgt]
    constructor
    · have h1 := normSq_normalizeV p hpnz
      rw [lengthV, h1, Real.sqrt_one]
    · rw [normalizeV, divideScalar, if_neg hne]
      have : p.z = 0 := rfl
      simp [this]
  · intro hle
    rw [mouseOnBall, ← hp, if_neg (not_lt.mpr hle)]
    have hz2 : (0:ℝ) ≤ 1 - lengthV p * lengthV p := by
      nlinarith [lengthV_nonneg p]
    refine ⟨rfl, Real.sqrt_nonneg _, ?_⟩
    have hxy : p.x ^ 2 + p.y ^ 2 = normSq p := by
      have hz0 : p.z = 0 := rfl
      rw [normSq, hz0]; ring
    rw [lengthV, normSq]
    have hsq : Real.sqrt (1 - lengthV p * lengthV p) ^ 2
        = 1 - lengthV p * lengthV p := Real.sq_sqrt hz2
    show Real.sqrt (p.x ^ 2 + p.y ^ 2 + Real.sqrt (1 - lengthV p * lengthV p) ^ 2) = 1
    rw [hsq, hxy, mul_self_lengthV]
    norm_num

/-- Witness for C4 at the 800x600 box: the canvas center lifts to the pole
(z = 1), and a far-off point (outside the unit disk) normalizes onto the
equator. -/
theorem mouseOnBall_on_hemisphere_witness :
    ((mouseOnBall ⟨0, 0, 800, 600⟩ 400 300).z
        = Real.sqrt (1 - lengthV (ballPlanar ⟨0, 0, 800, 600⟩ 400 300)
            * lengthV (ballPlanar ⟨0, 0, 800, 600⟩ 400 300))
      ∧ 0 ≤ (mouseOnBall ⟨0, 0, 800, 600⟩ 400 300).z
      ∧ lengthV (mouseOnBall ⟨0, 0, 800, 600⟩ 400 300) = 1)
    ∧ (lengthV (mouseOnBall ⟨0, 0, 800, 600⟩ 1200 300) = 1
      ∧ (mouseOnBall ⟨0, 0, 800, 600⟩ 1200 300).z = 0) := by
  constructor
  · refine (mouseOnBall_on_hemisphere ⟨0, 0, 800, 600⟩ 400 300 (by norm_num) (by norm_num)).2 ?_
    have : ballPlanar ⟨0, 0, 800, 600⟩ 400 300 = ⟨0, 0, 0⟩ := by
      unfold ballPlanar; ext <;> simp <;> norm_num
    rw [this]
    rw [lengthV]
    norm_num [normSq]
  · refine (mouseOnBall_on_hemisphere ⟨0, 0, 800, 600⟩ 1200 300 (by norm_num) (by norm_num)).1 ?_
    have : ballPlanar ⟨0, 0, 800, 600⟩ 1200 300 = ⟨2, 0, 0⟩ := by
      unfold ballPlanar; ext <;> simp <;> norm_num
    rw [this]
    rw [lengthV]
    rw [show normSq ⟨2, 0, 0⟩ = 4 by norm_num [normSq]]
    rw [show (4:ℝ) = 2 ^ 2 by norm_num, Real.sqrt_sq (by norm_num)]
    norm_num

/-- C9 (amended): one call of the trackball projection leaves the camera
position, target, up vector and rotate buffers unchanged, and its returned
vector is a pure function of the screen point, the canvas box and the camera
pose (position, target, up) — but the call does mutate the stored eye vector,
overwriting it with position - target rescaled to the z-coordinate of the
ball point (source lines 91 and 94). -/
theorem projectionOnBall_frame (s t : CamState) (pageX pageY : ℝ) :
    ((getMouseProjectionOnBall s pageX pageY).2.position = s.position
    ∧ (getMouseProjectionOnBall s pageX pageY).2.target = s.target
    ∧ (getMouseProjectionOnBall s pageX pageY).2.up = s.up
    ∧ (getMouseProjectionOnBall s pageX pageY).2.rotateStart = s.rotateStart
    ∧ (getMouseProjectionOnBall s pageX pageY).2.rotateEnd = s.rotateEnd
    ∧ (getMouseProjectionOnBall s pageX pageY).2.eye
        = setLengthV (s.position - s.target)
            (mouseOnBall s.canvasBox pageX pageY).z)
    ∧ (s.position = t.position → s.target = t.target → s.up = t.up →
        s.canvasBox = t.canvasBox →
        (getMouseProjectionOnBall s pageX pageY).1
          = (getMouseProjectionOnBall t pageX pageY).1) := by
  refine ⟨⟨rfl, rfl, rfl, rfl, rfl, rfl⟩, ?_⟩
  intro h1 h2 h3 h4
  simp only [getMouseProjectionOnBall, h1, h2, h3, h4]

/-- Witness for C9 at camA: position is untouched, the eye overwrite is the
predicted rescale, and a state differing only in eye and zoom fields returns
the same projection vector. -/
theorem projectionOnBall_frame_witness :
    (getMouseProjectionOnBall camA 400 300).2.position = camA.position
    ∧ (getMouseProjectionOnBall camA 400 300).2.eye
        = setLengthV (camA.position - camA.target)
            (mouseOnBall camA.canvasBox 400 300).z
    ∧ (getMouseProjectionOnBall camA 400 300).1
        = (getMouseProjectionOnBall { camA with eye := ⟨1, 1, 1⟩, zoomStart := 7 } 400 300).1 := by
  have h := projectionOnBall_frame camA
    { camA with eye := ⟨1, 1, 1⟩, zoomStart := 7 } 400 300
  exact ⟨h.1.1, h.1.2.2.2.2.2, h.2 rfl rfl rfl rfl⟩

/-- Counterexample to C9 as stated: at the canvas center of camA the ball
point is the pole (z = 1) and the call rewrites the stored eye vector from
(0,0,5) to (0,0,1): the stored eye vector is not identical before and after
the call. -/
theorem projectionOnBall_mutates_eye_counterexample :
    (getMouseProjectionOnBall camA 400 300).2.eye ≠ camA.eye := by
  have hplanar : ballPlanar ⟨0, 0, 800, 600⟩ 400 300 = ⟨0, 0, 0⟩ := by
    unfold ballPlanar; ext <;> simp <;> norm_num
  have hlen0 : lengthV (⟨0, 0, 0⟩ : Vec3) = 0 := by
    rw [lengthV]; simp [normSq]
  have hm : mouseOnBall ⟨0, 0, 800, 600⟩ 400 300 = ⟨0, 0, 1⟩ := by
    simp only [mouseOnBall]
    rw [hplanar, hlen0, if_neg (by norm_num)]
    ext <;> norm_num [Real.sqrt_one]
  have heye : (getMouseProjectionOnBall camA 400 300).2.eye
      = setLengthV (camA.position - camA.target)
          (mouseOnBall camA.canvasBox 400 300).z := rfl
  rw [heye]
  have hbox : camA.canvasBox = ⟨0, 0, 800, 600⟩ := rfl
  rw [hbox, hm]
  have hsub : camA.position - camA.target = ⟨0, 0, 5⟩ := by
    show (⟨0, 0, 5⟩ : Vec3) - 0 = ⟨0, 0, 5⟩
    ext <;> simp
  rw [hsub]
  have hl5 : lengthV (⟨0, 0, 5⟩ : Vec3) = 5 := by
    rw [lengthV]
    rw [show normSq ⟨0, 0, 5⟩ = 25 by norm_num [normSq]]
    rw [show (25 : ℝ) = 5 ^ 2 by norm_num, Real.sqrt_sq (by norm_num)]
  rw [setLengthV, if_neg (by rw [hl5]; norm_num), hl5]
  intro hcontra
  have hz : (((⟨0, 0, 1⟩ : Vec3).z / 5) • (⟨0, 0, 5⟩ : Vec3)).z = camA.eye.z := by
    rw [hcontra]
  simp [camA] at hz
